import Mathlib

/-!
Verification of the correlation core of the jsonrpsee HTTP client
(src/http-client/src/client.rs): id allocation, request/notification/batch
dispatch, response decoding fallback, and id-based batch correlation.

External collaborators (the HTTP transport and the serde JSON codec) are
modelled at their boundary: a response body is represented by the outcomes of
the decode attempts the client performs on it, and the transport by the
outcome of the send operation.
-/

set_option autoImplicit false

namespace Jsonrpsee

/-- Modulus of the client's `AtomicU64` request counter: 2 to the 64. -/
def U64MOD : Nat := 2 ^ 64

/-- Detail of a serde decoding failure (external codec collaborator). -/
abbrev SerdeErrorMsg := String

/-- Detail of a transport failure (external transport collaborator). -/
abbrev TransportErrorMsg := String

/-- A raw JSON id value (a `&JsonRawValue`), abstracted by the outcome of the
one operation the client performs on it: `serde_json::from_str::<u64>`.
Either the u64 it parses to, or the decoding failure. -/
abbrev RawValue := Except SerdeErrorMsg Nat

instance exceptDecEq {e a : Type} [DecidableEq e] [DecidableEq a] :
    DecidableEq (Except e a)
  | Except.error x, Except.error y =>
    if h : x = y then Decidable.isTrue (by rw [h])
    else Decidable.isFalse (by intro hc; cases hc; exact h rfl)
  | Except.error _, Except.ok _ => Decidable.isFalse (by intro hc; cases hc)
  | Except.ok _, Except.error _ => Decidable.isFalse (by intro hc; cases hc)
  | Except.ok x, Except.ok y =>
    if h : x = y then Decidable.isTrue (by rw [h])
    else Decidable.isFalse (by intro hc; cases hc; exact h rfl)

/-- A decoded success envelope `JsonRpcResponse<R>`: optional raw id plus the
result payload. -/
structure JsonRpcResponse (R : Type) where
  id : Option RawValue
  result : R
deriving DecidableEq, Repr

/-- Modelled from the spec: the error object inside an error envelope
(code, message, optional data); its Rust type lives in v2/error.rs, which is
not among the provided sources. -/
structure JsonRpcError where
  code : Int
  message : String
  data : Option String
deriving DecidableEq, Repr

/-- Modelled from the spec: a decoded error envelope `JsonRpcErrorAlloc`
(optional raw id plus the error object); its Rust type lives in v2/error.rs,
which is not among the provided sources. -/
structure JsonRpcErrorAlloc where
  id : Option RawValue
  error : JsonRpcError
deriving DecidableEq, Repr

/-- The client's error type (the variants exercised by client.rs). -/
inductive Error where
  | TransportError (e : TransportErrorMsg)
  | ParseError (e : SerdeErrorMsg)
  | Request (e : JsonRpcErrorAlloc)
  | InvalidRequestId
deriving DecidableEq, Repr

/-- A single-call response body, abstracted by the outcomes of the two decode
attempts client.rs can make on it: first as a success envelope
(`JsonRpcResponse`), then as an error envelope (`JsonRpcErrorAlloc`). -/
structure Body (R : Type) where
  asResponse : Except SerdeErrorMsg (JsonRpcResponse R)
  asError : Except SerdeErrorMsg JsonRpcErrorAlloc

/-- A batch response body, abstracted by the outcomes of the two decode
attempts client.rs can make on it: first as an array of success envelopes,
then as a single error envelope. -/
structure BatchBody (R : Type) where
  asResponses : Except SerdeErrorMsg (List (JsonRpcResponse R))
  asError : Except SerdeErrorMsg JsonRpcErrorAlloc

/-- `self.request_id.fetch_add(1, ...)`: returns the current counter value and
stores its wrapping successor. -/
def fetch_add (c : Nat) : Nat × Nat :=
  (c, (c + 1) % U64MOD)

/-- `fn parse_request_id(raw: Option<&JsonRawValue>) -> Result<u64, Error>`:
a missing id is `Error::InvalidRequestId`; a present id is parsed as u64 with
the parse failure mapped to `Error::ParseError`. -/
def parse_request_id : Option RawValue → Except Error Nat
  | none => Except.error Error.InvalidRequestId
  | some raw =>
    match raw with
    | Except.error e => Except.error (Error.ParseError e)
    | Except.ok v => Except.ok v

/-- `HttpClient::notification`: serializes and fire-and-forget sends; never
touches `request_id`. Returns the call outcome and the counter afterwards. -/
def notification (c : Nat) (transport : Except TransportErrorMsg Unit) :
    Except Error Unit × Nat :=
  match transport with
  | Except.error e => (Except.error (Error.TransportError e), c)
  | Except.ok _ => (Except.ok (), c)

/-- `HttpClient::request`: allocates an id with `fetch_add`, sends, decodes the
body first as a success envelope and on failure as an error envelope, then
correlates the response id with the allocated id. The transport argument is
the outcome of `send_and_read_body`. Returns the call outcome and the counter
afterwards. -/
def request (R : Type) (c : Nat) (transport : Except TransportErrorMsg (Body R)) :
    Except Error R × Nat :=
  let step := fetch_add c
  let id := step.1
  let cAfter := step.2
  match transport with
  | Except.error e => (Except.error (Error.TransportError e), cAfter)
  | Except.ok body =>
    match body.asResponse with
    | Except.error _ =>
      match body.asError with
      | Except.error e2 => (Except.error (Error.ParseError e2), cAfter)
      | Except.ok err => (Except.error (Error.Request err), cAfter)
    | Except.ok response =>
      match parse_request_id response.id with
      | Except.error e => (Except.error e, cAfter)
      | Except.ok response_id =>
        if response_id = id then (Except.ok response.result, cAfter)
        else (Except.error Error.InvalidRequestId, cAfter)

/-- A serialized call in the outgoing batch (`JsonRpcCallSer`). -/
structure Call where
  id : Nat
  method : String
  params : Option String
deriving DecidableEq, Repr

/-- The three artifacts the batch loop of `batch_request` builds, plus the
counter after the loop: the outgoing array, the ids in submission order, and
the `FnvHashMap` from id to submission position. -/
structure BatchBuild where
  batch_request : List Call
  ordered_requests : List Nat
  request_set : List (Nat × Nat)
  counter : Nat

/-- `FnvHashMap::get`: the first matching binding wins; `batchLoop` keeps the
latest insertion of a key ahead of earlier ones, matching hash-map insert
semantics. -/
def mapGet (m : List (Nat × Nat)) (k : Nat) : Option Nat :=
  match m with
  | [] => none
  | (k', v) :: rest => if k = k' then some v else mapGet rest k

/-- The id-allocation loop of `batch_request`: for each batch entry, in
submission order, `fetch_add` an id, push the serialized call, record the id,
and insert id to position into the map (a later insertion of the same key
shadows an earlier one, hence the later entries sit in front). -/
def batchLoop : Nat → Nat → List (String × Option String) → BatchBuild
  | c, _, [] => { batch_request := [], ordered_requests := [], request_set := [], counter := c }
  | c, pos, (method, params) :: rest =>
    let step := fetch_add c
    let b := batchLoop step.2 (pos + 1) rest
    { batch_request := { id := step.1, method := method, params := params } :: b.batch_request
      ordered_requests := step.1 :: b.ordered_requests
      request_set := b.request_set ++ [(step.1, pos)]
      counter := b.counter }

/-- The response-placement loop of `batch_request`: for each received envelope,
parse its id, look the id up in the map, and on success write the envelope's
result at the mapped position of the output vector. -/
def fillLoop (R : Type) (request_set : List (Nat × Nat)) :
    List (JsonRpcResponse R) → List R → Except Error (List R)
  | [], responses => Except.ok responses
  | rp :: rest, responses =>
    match parse_request_id rp.id with
    | Except.error e => Except.error e
    | Except.ok response_id =>
      match mapGet request_set response_id with
      | none => Except.error Error.InvalidRequestId
      | some pos => fillLoop R request_set rest (responses.set pos rp.result)

/-- `HttpClient::batch_request`: allocate one id per entry in submission order
building the id-to-position map, send, decode the body first as an array of
success envelopes and on failure as an error envelope, then fill an output
vector of placeholders (`vec![R::default(); ordered_requests.len()]`) by id
lookup. The transport argument is the outcome of `send_and_read_body`.
Returns the call outcome and the counter afterwards. -/
def batch_request (R : Type) [Inhabited R] (c : Nat)
    (batch : List (String × Option String))
    (transport : Except TransportErrorMsg (BatchBody R)) :
    Except Error (List R) × Nat :=
  let b := batchLoop c 0 batch
  match transport with
  | Except.error e => (Except.error (Error.TransportError e), b.counter)
  | Except.ok body =>
    match body.asResponses with
    | Except.error _ =>
      match body.asError with
      | Except.error e2 => (Except.error (Error.ParseError e2), b.counter)
      | Except.ok err => (Except.error (Error.Request err), b.counter)
    | Except.ok rps =>
      (fillLoop R b.request_set rps
        (List.replicate b.ordered_requests.length (default : R)), b.counter)

/-- The ids a counter starting at c hands out over n allocations:
position i receives (c + i) mod 2^64. -/
def allocIds (c n : Nat) : List Nat :=
  (List.range n).map (fun i => (c + i) % U64MOD)

/-- Closed form of the id-to-position map built by the batch loop for n
entries starting at counter c and position pos, later entries in front. -/
def allocMap (c pos n : Nat) : List (Nat × Nat) :=
  ((List.range n).map (fun i => ((c + i) % U64MOD, pos + i))).reverse

/-- Iterated id allocation: n successive fetch_add calls from counter c,
returning the allocated ids in order and the final counter. -/
def allocSeq (c : Nat) : Nat → List Nat × Nat
  | 0 => ([], c)
  | n + 1 =>
    let step := fetch_add c
    let rest := allocSeq step.2 n
    (step.1 :: rest.1, rest.2)

/-- A sequence of notification calls with the given transport outcomes,
threading the counter through. -/
def notifySeq (c : Nat) : List (Except TransportErrorMsg Unit) →
    List (Except Error Unit) × Nat
  | [] => ([], c)
  | t :: rest =>
    let step := notification c t
    let tail := notifySeq step.2 rest
    (step.1 :: tail.1, tail.2)

/-! Helper lemmas about the id space and the id-to-position map. -/

theorem U64MOD_pos : 0 < U64MOD :=
  Nat.two_pow_pos 64

theorem addmod_cancel {c i j : Nat} (hij : i ≤ j) (hj : j - i < U64MOD)
    (h : (c + i) % U64MOD = (c + j) % U64MOD) : i = j := by
  have hle : c + i ≤ c + j := Nat.add_le_add_left hij c
  have hdvd : U64MOD ∣ c + j - (c + i) := (Nat.modEq_iff_dvd' hle).mp h
  have heq : c + j - (c + i) = j - i := by omega
  rw [heq] at hdvd
  have hz : j - i = 0 := Nat.eq_zero_of_dvd_of_lt hdvd hj
  omega

theorem allocIds_length (c n : Nat) : (allocIds c n).length = n := by
  simp [allocIds]

theorem allocIds_getElem {c n p : Nat} (hp : p < n) :
    (allocIds c n)[p]? = some ((c + p) % U64MOD) := by
  simp [allocIds, List.getElem?_map, List.getElem?_range hp]

theorem mem_allocIds {c n v : Nat} :
    v ∈ allocIds c n ↔ ∃ i, i < n ∧ v = (c + i) % U64MOD := by
  simp [allocIds, List.mem_map, List.mem_range, eq_comm]

theorem allocIds_nodup {c n : Nat} (hc : c < U64MOD) (hn : n ≤ U64MOD) :
    (allocIds c n).Nodup := by
  apply List.Nodup.map_on ?_ (List.nodup_range n)
  intro i hi j hj hij
  rw [List.mem_range] at hi hj
  rcases Nat.le_total i j with h | h
  · exact addmod_cancel h (by omega) hij
  · exact (addmod_cancel h (by omega) hij.symm).symm

theorem allocIds_succ {c : Nat} (n : Nat) (hc : c < U64MOD) :
    allocIds c (n + 1) = c :: allocIds ((c + 1) % U64MOD) n := by
  unfold allocIds
  rw [List.range_succ_eq_map, List.map_cons, List.map_map]
  refine congrArg₂ _ (by rw [Nat.add_zero, Nat.mod_eq_of_lt hc]) ?_
  apply List.map_congr_left
  intro a _
  show (c + Nat.succ a) % U64MOD = ((c + 1) % U64MOD + a) % U64MOD
  rw [Nat.mod_add_mod]
  congr 1
  omega

theorem allocMap_succ {c : Nat} (pos n : Nat) (hc : c < U64MOD) :
    allocMap c pos (n + 1) = allocMap ((c + 1) % U64MOD) (pos + 1) n ++ [(c, pos)] := by
  unfold allocMap
  rw [List.range_succ_eq_map, List.map_cons, List.reverse_cons, List.map_map]
  refine congrArg₂ _ ?_ (by simp [Nat.mod_eq_of_lt hc])
  refine congrArg _ (List.map_congr_left ?_)
  intro a _
  show ((c + Nat.succ a) % U64MOD, pos + Nat.succ a)
      = (((c + 1) % U64MOD + a) % U64MOD, pos + 1 + a)
  rw [Nat.mod_add_mod, Prod.mk.injEq]
  constructor
  · congr 1
    omega
  · omega

theorem batchLoop_ordered (batch : List (String × Option String)) :
    ∀ {c : Nat} (pos : Nat), c < U64MOD →
      (batchLoop c pos batch).ordered_requests = allocIds c batch.length := by
  induction batch with
  | nil => intro c pos hc; rfl
  | cons e rest ih =>
    intro c pos hc
    obtain ⟨method, params⟩ := e
    show c :: (batchLoop ((c + 1) % U64MOD) (pos + 1) rest).ordered_requests
        = allocIds c (rest.length + 1)
    rw [allocIds_succ rest.length hc, ih (pos + 1) (Nat.mod_lt _ U64MOD_pos)]

theorem batchLoop_set (batch : List (String × Option String)) :
    ∀ {c : Nat} (pos : Nat), c < U64MOD →
      (batchLoop c pos batch).request_set = allocMap c pos batch.length := by
  induction batch with
  | nil => intro c pos hc; rfl
  | cons e rest ih =>
    intro c pos hc
    obtain ⟨method, params⟩ := e
    show (batchLoop ((c + 1) % U64MOD) (pos + 1) rest).request_set ++ [(c, pos)]
        = allocMap c pos (rest.length + 1)
    rw [allocMap_succ pos rest.length hc, ih (pos + 1) (Nat.mod_lt _ U64MOD_pos)]

theorem mapGet_append (l1 l2 : List (Nat × Nat)) (k : Nat) :
    mapGet (l1 ++ l2) k = match mapGet l1 k with
      | some v => some v
      | none => mapGet l2 k := by
  induction l1 with
  | nil => simp [mapGet]
  | cons a rest ih =>
    obtain ⟨k', v⟩ := a
    by_cases h : k = k' <;> simp [mapGet, h, ih]

theorem mapGet_allocMap_some {v q : Nat} :
    ∀ (n : Nat) {c : Nat} (pos : Nat), c < U64MOD →
      mapGet (allocMap c pos n) v = some q →
      ∃ i, i < n ∧ v = (c + i) % U64MOD ∧ q = pos + i := by
  intro n
  induction n with
  | zero => intro c pos _ h; simp [allocMap, mapGet] at h
  | succ n ih =>
    intro c pos hc h
    rw [allocMap_succ pos n hc, mapGet_append] at h
    rcases hfront : mapGet (allocMap ((c + 1) % U64MOD) (pos + 1) n) v with _ | q'
    · rw [hfront] at h
      simp only [mapGet] at h
      by_cases hv : v = c
      · rw [if_pos hv] at h
        refine ⟨0, Nat.succ_pos n, ?_, ?_⟩
        · rw [Nat.add_zero, Nat.mod_eq_of_lt hc, hv]
        · injection h with h
          omega
      · rw [if_neg hv] at h
        exact absurd h (by simp)
    · rw [hfront] at h
      simp only [] at h
      injection h with h
      subst h
      obtain ⟨i, hi, hvi, hqi⟩ := ih (pos + 1) (Nat.mod_lt _ U64MOD_pos) hfront
      refine ⟨i + 1, by omega, ?_, ?_⟩
      · rw [hvi, Nat.mod_add_mod]
        congr 1
        omega
      · omega

theorem mapGet_allocMap_eq :
    ∀ (n : Nat) {c : Nat} (pos : Nat) {p : Nat}, c < U64MOD → n ≤ U64MOD → p < n →
      mapGet (allocMap c pos n) ((c + p) % U64MOD) = some (pos + p) := by
  intro n
  induction n with
  | zero => intro c pos p _ _ hp; omega
  | succ n ih =>
    intro c pos p hc hn hp
    rw [allocMap_succ pos n hc, mapGet_append]
    have hczero : (c + 0) % U64MOD = c := by rw [Nat.add_zero, Nat.mod_eq_of_lt hc]
    rcases p with _ | p
    · have hfront :
          mapGet (allocMap ((c + 1) % U64MOD) (pos + 1) n) ((c + 0) % U64MOD) = none := by
        rcases hget : mapGet (allocMap ((c + 1) % U64MOD) (pos + 1) n) ((c + 0) % U64MOD)
          with _ | q
        · rfl
        · exfalso
          obtain ⟨i, hi, hvi, _⟩ :=
            mapGet_allocMap_some n (pos + 1) (Nat.mod_lt _ U64MOD_pos) hget
          rw [Nat.mod_add_mod] at hvi
          have h0 : (c + 0) % U64MOD = (c + (1 + i)) % U64MOD := by
            rw [show c + (1 + i) = c + 1 + i from by omega]
            exact hvi
          have := addmod_cancel (Nat.zero_le (1 + i)) (by omega) h0
          omega
      rw [hfront]
      simp [mapGet, Nat.mod_eq_of_lt hc]
    · have hkey : (c + (p + 1)) % U64MOD = ((c + 1) % U64MOD + p) % U64MOD := by
        rw [Nat.mod_add_mod]
        congr 1
        omega
      rw [hkey,
        @ih ((c + 1) % U64MOD) (pos + 1) p (Nat.mod_lt _ U64MOD_pos) (by omega) (by omega)]
      show some (pos + 1 + p) = some (pos + (p + 1))
      congr 1
      omega

theorem mapGet_allocMap_none {c pos n v : Nat} (hc : c < U64MOD)
    (hv : v ∉ allocIds c n) : mapGet (allocMap c pos n) v = none := by
  rcases hget : mapGet (allocMap c pos n) v with _ | q
  · rfl
  · obtain ⟨i, hi, hvi, _⟩ := mapGet_allocMap_some n pos hc hget
    exact absurd (mem_allocIds.mpr ⟨i, hi, hvi⟩) hv

/-- The output position an envelope lands at: its id must parse and the
parsed id must be bound in the map. -/
def hitOf (R : Type) (m : List (Nat × Nat)) (rp : JsonRpcResponse R) : Option Nat :=
  match rp.id with
  | some (Except.ok v) => mapGet m v
  | _ => none

/-- The envelopes of a batch response that land at output position p,
in array order. -/
def hitsAt (R : Type) (m : List (Nat × Nat)) (p : Nat)
    (rps : List (JsonRpcResponse R)) : List (JsonRpcResponse R) :=
  rps.filter (fun rp => decide (hitOf R m rp = some p))

theorem getLast?_cons_getD {A : Type} (a : A) (l : List A) :
    (a :: l).getLast? = some (l.getLast?.getD a) := by
  induction l generalizing a with
  | nil => rfl
  | cons b t ih =>
    rw [List.getLast?_cons_cons, ih b]
    simp

/-- Master lemma about the response-placement loop: when every envelope's id
parses and is bound in the map at an in-range position, the loop succeeds,
preserves the output length, and each output position holds the result of the
last envelope landing there, or the initial content if none does. -/
theorem fillLoop_spec (R : Type) (m : List (Nat × Nat)) :
    ∀ (rps : List (JsonRpcResponse R)) (acc : List R),
      (∀ rp ∈ rps, ∃ v p, rp.id = some (Except.ok v) ∧ mapGet m v = some p ∧
        p < acc.length) →
      ∃ out, fillLoop R m rps acc = Except.ok out ∧ out.length = acc.length ∧
        ∀ p, out[p]? = match (hitsAt R m p rps).getLast? with
          | some rp => some rp.result
          | none => acc[p]? := by
  intro rps
  induction rps with
  | nil =>
    intro acc _
    exact ⟨acc, rfl, rfl, fun p => by simp [hitsAt]⟩
  | cons rp rest ih =>
    intro acc hgood
    obtain ⟨v, q, hid, hvq, hqlt⟩ := hgood rp (List.mem_cons_self rp rest)
    have hstep : fillLoop R m (rp :: rest) acc
        = fillLoop R m rest (acc.set q rp.result) := by
      simp [fillLoop, hid, parse_request_id, hvq]
    have hgoodrest : ∀ rp' ∈ rest, ∃ v' p', rp'.id = some (Except.ok v') ∧
        mapGet m v' = some p' ∧ p' < (acc.set q rp.result).length := by
      intro rp' hmem
      obtain ⟨v', p', h1, h2, h3⟩ := hgood rp' (List.mem_cons_of_mem rp hmem)
      exact ⟨v', p', h1, h2, by rw [List.length_set]; exact h3⟩
    obtain ⟨out, hout, hlen, hval⟩ := ih (acc.set q rp.result) hgoodrest
    refine ⟨out, by rw [hstep]; exact hout, by rw [hlen, List.length_set], ?_⟩
    intro p
    have hhit : hitOf R m rp = some q := by simp [hitOf, hid, hvq]
    have hv := hval p
    by_cases hpq : q = p
    · subst hpq
      have hcond : decide (hitOf R m rp = some q) = true := by rw [hhit]; simp
      have hfilter : hitsAt R m q (rp :: rest) = rp :: hitsAt R m q rest := by
        simp only [hitsAt, List.filter_cons, hcond, if_pos]
      rw [hfilter, getLast?_cons_getD]
      rcases hl : (hitsAt R m q rest).getLast? with _ | x
      · rw [hl] at hv
        show out[q]? = some rp.result
        rw [hv]
        show (acc.set q rp.result)[q]? = some rp.result
        exact List.getElem?_set_eq_of_lt rp.result hqlt
      · rw [hl] at hv
        show out[q]? = some x.result
        exact hv
    · have hcond : decide (hitOf R m rp = some p) = false := by
        rw [hhit]
        simp
        intro h
        exact absurd h hpq
      have hfilter : hitsAt R m p (rp :: rest) = hitsAt R m p rest := by
        simp only [hitsAt, List.filter_cons, hcond]
        simp
      rw [hfilter]
      rcases hl : (hitsAt R m p rest).getLast? with _ | x
      · rw [hl] at hv
        show out[p]? = acc[p]?
        rw [hv]
        show (acc.set q rp.result)[p]? = acc[p]?
        exact List.getElem?_set_ne hpq
      · rw [hl] at hv
        show out[p]? = some x.result
        exact hv

/-- When every envelope's id parses but some parsed id is unbound in the map,
the response-placement loop fails with InvalidRequestId. -/
theorem fillLoop_miss (R : Type) (m : List (Nat × Nat)) :
    ∀ (rps : List (JsonRpcResponse R)) (acc : List R),
      (∀ rp ∈ rps, ∃ v, rp.id = some (Except.ok v)) →
      (∃ rp ∈ rps, ∃ v, rp.id = some (Except.ok v) ∧ mapGet m v = none) →
      fillLoop R m rps acc = Except.error Error.InvalidRequestId := by
  intro rps
  induction rps with
  | nil =>
    intro acc _ hbad
    simp at hbad
  | cons rp rest ih =>
    intro acc hparse hbad
    obtain ⟨v, hid⟩ := hparse rp (List.mem_cons_self rp rest)
    rcases hvq : mapGet m v with _ | q
    · simp [fillLoop, hid, parse_request_id, hvq]
    · have hstep : fillLoop R m (rp :: rest) acc
          = fillLoop R m rest (acc.set q rp.result) := by
        simp [fillLoop, hid, parse_request_id, hvq]
      rw [hstep]
      apply ih
      · intro rp' h
        exact hparse rp' (List.mem_cons_of_mem rp h)
      · obtain ⟨rp', hmem, v', hid', hv'⟩ := hbad
        rcases List.mem_cons.mp hmem with heq | hmem'
        · exfalso
          rw [heq, hid] at hid'
          injection hid' with hid'
          injection hid' with hid'
          rw [← hid'] at hv'
          rw [hvq] at hv'
          exact Option.noConfusion hv'
        · exact ⟨rp', hmem', v', hid', hv'⟩

/-! Claim theorems. -/

theorem allocSeq_eq (N : Nat) :
    ∀ {c : Nat}, c < U64MOD → (allocSeq c N).1 = allocIds c N := by
  induction N with
  | zero => intro c _; rfl
  | succ n ih =>
    intro c hc
    show c :: (allocSeq ((c + 1) % U64MOD) n).1 = allocIds c (n + 1)
    rw [allocIds_succ n hc, ih (Nat.mod_lt _ U64MOD_pos)]

/-- C6: starting from any counter value c (below 2 to the 64, the range of the
AtomicU64), the i-th of N allocated ids is (c + i) mod 2^64; the N ids are
pairwise distinct whenever N < 2^64; successive ids advance by one modulo
2^64; and a fetch_add at the maximum u64 value returns that value and stores
zero, without failure. -/
theorem id_generator_spec (c N : Nat) (hc : c < U64MOD) (hN : N < U64MOD) :
    (∀ i, i < N → (allocSeq c N).1[i]? = some ((c + i) % U64MOD)) ∧
    (allocSeq c N).1.Nodup ∧
    (∀ i, i + 1 < N → (allocSeq c N).1[i + 1]?
      = ((allocSeq c N).1[i]?).map (fun v => (v + 1) % U64MOD)) ∧
    fetch_add (U64MOD - 1) = (U64MOD - 1, 0) := by
  have hids := allocSeq_eq N hc
  refine ⟨?_, ?_, ?_, ?_⟩
  · intro i hi
    rw [hids]
    exact allocIds_getElem hi
  · rw [hids]
    exact allocIds_nodup hc (le_of_lt hN)
  · intro i hi
    rw [hids, allocIds_getElem (show i + 1 < N from hi),
      allocIds_getElem (show i < N from by omega)]
    rw [Option.map_some']
    rw [Nat.mod_add_mod]
    congr 2
  · show (U64MOD - 1, (U64MOD - 1 + 1) % U64MOD) = (U64MOD - 1, 0)
    have h1 : U64MOD - 1 + 1 = U64MOD := by have := U64MOD_pos; omega
    rw [h1, Nat.mod_self]

theorem id_generator_spec_witness :
    (∀ i, i < 3 → (allocSeq 5 3).1[i]? = some ((5 + i) % U64MOD)) ∧
    (allocSeq 5 3).1.Nodup ∧
    (∀ i, i + 1 < 3 → (allocSeq 5 3).1[i + 1]?
      = ((allocSeq 5 3).1[i]?).map (fun v => (v + 1) % U64MOD)) ∧
    fetch_add (U64MOD - 1) = (U64MOD - 1, 0) :=
  id_generator_spec 5 3 (by decide) (by decide)

/-- C9: no sequence of notification sends ever touches the request counter:
after any number of notifications, with any mix of transport successes and
failures, the counter holds the value it held before. -/
theorem notification_allocates_no_id (c : Nat)
    (ts : List (Except TransportErrorMsg Unit)) : (notifySeq c ts).2 = c := by
  induction ts with
  | nil => rfl
  | cons t rest ih =>
    show (notifySeq (notification c t).2 rest).2 = c
    cases t
    · exact ih
    · exact ih

/-- C7: for a single call whose response body decodes as a success envelope
with an id that parses, the call succeeds with the envelope's result when the
parsed id equals the allocated id (the counter value), and fails with
InvalidRequestId when it differs. -/
theorem request_correlates_by_id (R : Type) (c : Nat) (body : Body R)
    (rsp : JsonRpcResponse R) (v : Nat)
    (hbody : body.asResponse = Except.ok rsp)
    (hid : rsp.id = some (Except.ok v)) :
    (v = c → (request R c (Except.ok body)).1 = Except.ok rsp.result) ∧
    (v ≠ c → (request R c (Except.ok body)).1 = Except.error Error.InvalidRequestId) := by
  constructor
  · intro hv
    simp [request, fetch_add, hbody, parse_request_id, hid, hv]
  · intro hv
    simp [request, fetch_add, hbody, parse_request_id, hid, hv]

theorem request_correlates_by_id_witness :
    (request Nat 0 (Except.ok ⟨Except.ok ⟨some (Except.ok 0), 42⟩, Except.error "e"⟩)).1
      = Except.ok 42 ∧
    (request Nat 0 (Except.ok ⟨Except.ok ⟨some (Except.ok 1), 42⟩, Except.error "e"⟩)).1
      = Except.error Error.InvalidRequestId :=
  ⟨(request_correlates_by_id Nat 0 _ ⟨some (Except.ok 0), 42⟩ 0 rfl rfl).1 rfl,
    (request_correlates_by_id Nat 0 _ ⟨some (Except.ok 1), 42⟩ 1 rfl rfl).2 (by decide)⟩

/-- C8: a body that fails the success-envelope decode but decodes as an error
envelope fails the call with the Request variant carrying the server-supplied
envelope (code, message and data included), a variant distinct from transport,
parse and unattributable-response failures. -/
theorem request_protocol_error (R : Type) (c : Nat) (body : Body R)
    (e1 : SerdeErrorMsg) (err : JsonRpcErrorAlloc)
    (h1 : body.asResponse = Except.error e1)
    (h2 : body.asError = Except.ok err) :
    (request R c (Except.ok body)).1 = Except.error (Error.Request err) ∧
    (∀ e, Error.Request err ≠ Error.TransportError e) ∧
    (∀ e, Error.Request err ≠ Error.ParseError e) ∧
    Error.Request err ≠ Error.InvalidRequestId := by
  refine ⟨?_, ?_, ?_, ?_⟩
  · simp [request, h1, h2]
  · intro e h
    exact Error.noConfusion h
  · intro e h
    exact Error.noConfusion h
  · intro h
    exact Error.noConfusion h

theorem request_protocol_error_witness :
    (request Nat 7 (Except.ok ⟨Except.error "undecodable",
        Except.ok ⟨some (Except.ok 0), ⟨-32600, "Invalid Request", none⟩⟩⟩)).1
      = Except.error (Error.Request ⟨some (Except.ok 0), ⟨-32600, "Invalid Request", none⟩⟩) ∧
    (∀ e, Error.Request ⟨some (Except.ok 0), ⟨-32600, "Invalid Request", none⟩⟩
      ≠ Error.TransportError e) ∧
    (∀ e, Error.Request ⟨some (Except.ok 0), ⟨-32600, "Invalid Request", none⟩⟩
      ≠ Error.ParseError e) ∧
    Error.Request ⟨some (Except.ok 0), ⟨-32600, "Invalid Request", none⟩⟩
      ≠ Error.InvalidRequestId :=
  request_protocol_error Nat 7 _ "undecodable"
    ⟨some (Except.ok 0), ⟨-32600, "Invalid Request", none⟩⟩ rfl rfl

/-- C2 counterexample: when both decode attempts fail, the ParseError carries
the secondary (error-envelope) decoding failure, not the original
(success-envelope) one as the claim states. -/
theorem parse_error_original_counterexample :
    (request Nat 0 (Except.ok ⟨Except.error "original failure",
        Except.error "secondary failure"⟩)).1
      = Except.error (Error.ParseError "secondary failure") ∧
    (request Nat 0 (Except.ok ⟨Except.error "original failure",
        Except.error "secondary failure"⟩)).1
      ≠ Except.error (Error.ParseError "original failure") :=
  ⟨rfl, by decide⟩

/-- C2 amended: for both single and batch calls, when the body fails to decode
under the success shape and then also under the error shape, the operation
fails with a ParseError carrying the secondary (error-shape) decoding failure;
the original (success-shape) failure is discarded. -/
theorem parse_error_carries_secondary (R : Type) [Inhabited R] (c : Nat)
    (body : Body R) (bbody : BatchBody R) (batch : List (String × Option String))
    (e1 e2 f1 f2 : SerdeErrorMsg)
    (h1 : body.asResponse = Except.error e1) (h2 : body.asError = Except.error e2)
    (h3 : bbody.asResponses = Except.error f1) (h4 : bbody.asError = Except.error f2) :
    (request R c (Except.ok body)).1 = Except.error (Error.ParseError e2) ∧
    (batch_request R c batch (Except.ok bbody)).1 = Except.error (Error.ParseError f2) := by
  constructor
  · simp [request, h1, h2]
  · simp [batch_request, h3, h4]

theorem parse_error_carries_secondary_witness :
    (request Nat 0 (Except.ok ⟨Except.error "first", Except.error "second"⟩)).1
      = Except.error (Error.ParseError "second") ∧
    (batch_request Nat 0 [("m", none)]
        (Except.ok ⟨Except.error "third", Except.error "fourth"⟩)).1
      = Except.error (Error.ParseError "fourth") :=
  parse_error_carries_secondary Nat 0 _ _ [("m", none)]
    "first" "second" "third" "fourth" rfl rfl rfl rfl

/-- C3 counterexample: a response whose success envelope carries an id that is
present but fails to parse as u64 yields ParseError, not the
unattributable-response error InvalidRequestId as the claim states. -/
theorem unattributable_unparseable_counterexample :
    (request Nat 0 (Except.ok ⟨Except.ok ⟨some (Except.error "not a u64"), 42⟩,
        Except.error "e"⟩)).1
      = Except.error (Error.ParseError "not a u64") ∧
    (request Nat 0 (Except.ok ⟨Except.ok ⟨some (Except.error "not a u64"), 42⟩,
        Except.error "e"⟩)).1
      ≠ Except.error Error.InvalidRequestId :=
  ⟨rfl, by decide⟩

/-- C3 amended: for a single call whose body decodes as a success envelope, a
missing id fails the call with the unattributable-response error
(InvalidRequestId), while an id that is present but fails to parse as u64
fails it with ParseError carrying the id decoding failure. -/
theorem request_id_missing_or_unparseable (R : Type) (c : Nat) (body : Body R)
    (rsp : JsonRpcResponse R) (e : SerdeErrorMsg)
    (hbody : body.asResponse = Except.ok rsp) :
    (rsp.id = none →
      (request R c (Except.ok body)).1 = Except.error Error.InvalidRequestId) ∧
    (rsp.id = some (Except.error e) →
      (request R c (Except.ok body)).1 = Except.error (Error.ParseError e)) := by
  constructor
  · intro h
    simp [request, hbody, parse_request_id, h]
  · intro h
    simp [request, hbody, parse_request_id, h]

theorem request_id_missing_or_unparseable_witness :
    (request Nat 0 (Except.ok ⟨Except.ok ⟨none, 42⟩, Except.error "e"⟩)).1
      = Except.error Error.InvalidRequestId ∧
    (request Nat 0 (Except.ok ⟨Except.ok ⟨some (Except.error "junk"), 42⟩,
        Except.error "e"⟩)).1
      = Except.error (Error.ParseError "junk") :=
  ⟨(request_id_missing_or_unparseable Nat 0 _ ⟨none, 42⟩ "unused" rfl).1 rfl,
    (request_id_missing_or_unparseable Nat 0 _ ⟨some (Except.error "junk"), 42⟩
      "junk" rfl).2 rfl⟩

theorem batch_request_ok_unfold (R : Type) [Inhabited R] (c : Nat)
    (batch : List (String × Option String)) (bbody : BatchBody R)
    (rps : List (JsonRpcResponse R)) (hbody : bbody.asResponses = Except.ok rps) :
    (batch_request R c batch (Except.ok bbody)).1
      = fillLoop R (batchLoop c 0 batch).request_set rps
          (List.replicate (batchLoop c 0 batch).ordered_requests.length (default : R)) := by
  simp [batch_request, hbody]

theorem batchLoop_ordered_length {c : Nat} (batch : List (String × Option String))
    (hc : c < U64MOD) :
    (batchLoop c 0 batch).ordered_requests.length = batch.length := by
  rw [batchLoop_ordered batch 0 hc, allocIds_length]

theorem hitOf_allocMap_iff (R : Type) {c n p : Nat} (hc : c < U64MOD)
    (hn : n ≤ U64MOD) (hp : p < n) (rp : JsonRpcResponse R) :
    hitOf R (allocMap c 0 n) rp = some p ↔
      rp.id = some (Except.ok ((c + p) % U64MOD)) := by
  constructor
  · intro h
    rcases hid : rp.id with _ | raw
    · simp [hitOf, hid] at h
    · rcases raw with e | v
      · simp [hitOf, hid] at h
      · simp only [hitOf, hid] at h
        obtain ⟨i, hi, hvi, hpi⟩ := mapGet_allocMap_some n 0 hc h
        have hip : i = p := by omega
        rw [hvi, hip]
  · intro h
    have hget := mapGet_allocMap_eq n 0 hc hn hp
    simp only [hitOf, h, hget, Nat.zero_add]

theorem hitsAt_allocMap_eq (R : Type) {c n p : Nat} (hc : c < U64MOD)
    (hn : n ≤ U64MOD) (hp : p < n) (rps : List (JsonRpcResponse R)) :
    hitsAt R (allocMap c 0 n) p rps
      = rps.filter (fun rp => decide (rp.id = some (Except.ok ((c + p) % U64MOD)))) := by
  apply List.filter_congr
  intro rp _
  exact decide_eq_decide.mpr (hitOf_allocMap_iff R hc hn hp rp)

/-- C4: a batch whose decoded response contains an envelope carrying a parsed
id outside the allocated id set fails wholesale with InvalidRequestId: the
operation returns an error, never partial results. -/
theorem batch_request_unknown_id_fails (R : Type) [Inhabited R] (c : Nat)
    (batch : List (String × Option String)) (bbody : BatchBody R)
    (rps : List (JsonRpcResponse R))
    (hc : c < U64MOD)
    (hbody : bbody.asResponses = Except.ok rps)
    (hparse : ∀ rp ∈ rps, ∃ v, rp.id = some (Except.ok v))
    (hbad : ∃ rp ∈ rps, ∃ v, rp.id = some (Except.ok v) ∧
      v ∉ allocIds c batch.length) :
    (batch_request R c batch (Except.ok bbody)).1
      = Except.error Error.InvalidRequestId := by
  rw [batch_request_ok_unfold R c batch bbody rps hbody, batchLoop_set batch 0 hc]
  apply fillLoop_miss
  · exact hparse
  · obtain ⟨rp, hmem, v, hid, hnot⟩ := hbad
    exact ⟨rp, hmem, v, hid, mapGet_allocMap_none hc hnot⟩

theorem batch_request_unknown_id_fails_witness :
    (batch_request Nat 5 [("a", none), ("b", none), ("c", none)]
        (Except.ok ⟨Except.ok [⟨some (Except.ok 99), 0⟩], Except.error "e"⟩)).1
      = Except.error Error.InvalidRequestId := by
  apply batch_request_unknown_id_fails Nat 5 [("a", none), ("b", none), ("c", none)]
      _ [⟨some (Except.ok 99), 0⟩] (by decide) rfl
  · intro rp h
    rw [List.mem_singleton] at h
    subst h
    exact ⟨99, rfl⟩
  · exact ⟨⟨some (Except.ok 99), 0⟩, List.mem_singleton.mpr rfl, 99, rfl, by decide⟩

/-- C5: a batch whose decoded response has fewer envelopes than calls, each
envelope carrying an id from the allocated set, still returns Ok with an
output of the original batch length; every position whose id received no
envelope holds the placeholder produced by the Default instance of the result
type. -/
theorem batch_request_short_reply_placeholders (R : Type) [Inhabited R] (c : Nat)
    (batch : List (String × Option String)) (bbody : BatchBody R)
    (rps : List (JsonRpcResponse R))
    (hc : c < U64MOD) (hn : batch.length ≤ U64MOD)
    (hbody : bbody.asResponses = Except.ok rps)
    (hgood : ∀ rp ∈ rps, ∃ v, rp.id = some (Except.ok v) ∧
      v ∈ allocIds c batch.length)
    (hshort : rps.length < batch.length) :
    ∃ out, (batch_request R c batch (Except.ok bbody)).1 = Except.ok out ∧
      out.length = batch.length ∧
      ∀ p, p < batch.length →
        (∀ rp ∈ rps, rp.id ≠ some (Except.ok ((c + p) % U64MOD))) →
        out[p]? = some (default : R) := by
  have hunfold := batch_request_ok_unfold R c batch bbody rps hbody
  have hlen := batchLoop_ordered_length batch hc
  have hset := batchLoop_set batch 0 hc
  have hgoodfill : ∀ rp ∈ rps, ∃ v p', rp.id = some (Except.ok v) ∧
      mapGet (batchLoop c 0 batch).request_set v = some p' ∧
      p' < (List.replicate (batchLoop c 0 batch).ordered_requests.length
        (default : R)).length := by
    intro rp hmem
    obtain ⟨v, hid, hv⟩ := hgood rp hmem
    obtain ⟨i, hi, hvi⟩ := mem_allocIds.mp hv
    refine ⟨v, i, hid, ?_, ?_⟩
    · rw [hset, hvi]
      rw [mapGet_allocMap_eq batch.length 0 hc hn hi, Nat.zero_add]
    · rw [List.length_replicate, hlen]
      exact hi
  obtain ⟨out, hout, houtlen, hval⟩ :=
    fillLoop_spec R (batchLoop c 0 batch).request_set rps
      (List.replicate (batchLoop c 0 batch).ordered_requests.length (default : R))
      hgoodfill
  refine ⟨out, by rw [hunfold]; exact hout,
    by rw [houtlen, List.length_replicate, hlen], ?_⟩
  intro p hp hnone
  have hfil : hitsAt R (batchLoop c 0 batch).request_set p rps = [] := by
    rw [hset, hitsAt_allocMap_eq R hc hn hp rps]
    rw [List.filter_eq_nil_iff]
    intro rp hmem
    rw [decide_eq_true_iff]
    exact hnone rp hmem
  have hv := hval p
  rw [hfil] at hv
  rw [hv]
  show (List.replicate (batchLoop c 0 batch).ordered_requests.length
    (default : R))[p]? = some (default : R)
  rw [List.getElem?_replicate, if_pos (by rw [hlen]; exact hp)]

theorem batch_request_short_reply_placeholders_witness :
    ∃ out, (batch_request Nat 5 [("a", none), ("b", none), ("c", none)]
        (Except.ok ⟨Except.ok [⟨some (Except.ok 6), 60⟩], Except.error "e"⟩)).1
      = Except.ok out ∧
      out.length = 3 ∧
      ∀ p, p < 3 →
        (∀ rp ∈ [(⟨some (Except.ok 6), 60⟩ : JsonRpcResponse Nat)],
          rp.id ≠ some (Except.ok ((5 + p) % U64MOD))) →
        out[p]? = some (default : Nat) := by
  apply batch_request_short_reply_placeholders Nat 5
      [("a", none), ("b", none), ("c", none)] _ [⟨some (Except.ok 6), 60⟩]
      (by decide) (by decide) rfl
  · intro rp h
    rw [List.mem_singleton] at h
    subst h
    exact ⟨6, rfl, by decide⟩
  · decide

theorem some_ok_injective :
    Function.Injective (fun v : Nat => (some (Except.ok v) : Option RawValue)) := by
  intro a b h
  simp only [Option.some.injEq] at h
  injection h with h

/-- C1: for a batch of N calls whose decoded response carries exactly the N
allocated ids, in any array order, the operation returns Ok with an output of
length N in which each position p holds the result of the envelope that
carried the p-th allocated id, so results sit at their submission positions
independent of reply order. -/
theorem batch_request_correlates_by_position (R : Type) [Inhabited R] (c : Nat)
    (batch : List (String × Option String)) (bbody : BatchBody R)
    (rps : List (JsonRpcResponse R))
    (hc : c < U64MOD) (hn : batch.length ≤ U64MOD)
    (hbody : bbody.asResponses = Except.ok rps)
    (hperm : List.Perm (rps.map (fun rp => rp.id))
      ((allocIds c batch.length).map (fun v => some (Except.ok v)))) :
    ∃ out, (batch_request R c batch (Except.ok bbody)).1 = Except.ok out ∧
      out.length = batch.length ∧
      ∀ p, p < batch.length → ∀ rp ∈ rps,
        rp.id = some (Except.ok ((c + p) % U64MOD)) →
        out[p]? = some rp.result := by
  have hunfold := batch_request_ok_unfold R c batch bbody rps hbody
  have hlen := batchLoop_ordered_length batch hc
  have hset := batchLoop_set batch 0 hc
  have hnodup := allocIds_nodup hc hn
  have hgoodfill : ∀ rp ∈ rps, ∃ v p', rp.id = some (Except.ok v) ∧
      mapGet (batchLoop c 0 batch).request_set v = some p' ∧
      p' < (List.replicate (batchLoop c 0 batch).ordered_requests.length
        (default : R)).length := by
    intro rp hmem
    have hidmem : rp.id ∈ (allocIds c batch.length).map
        (fun v => some (Except.ok v)) :=
      hperm.mem_iff.mp (List.mem_map_of_mem (fun rp => rp.id) hmem)
    obtain ⟨v, hv, hfv⟩ := List.mem_map.mp hidmem
    obtain ⟨i, hi, hvi⟩ := mem_allocIds.mp hv
    refine ⟨v, i, hfv.symm, ?_, ?_⟩
    · rw [hset, hvi]
      rw [mapGet_allocMap_eq batch.length 0 hc hn hi, Nat.zero_add]
    · rw [List.length_replicate, hlen]
      exact hi
  obtain ⟨out, hout, houtlen, hval⟩ :=
    fillLoop_spec R (batchLoop c 0 batch).request_set rps
      (List.replicate (batchLoop c 0 batch).ordered_requests.length (default : R))
      hgoodfill
  refine ⟨out, by rw [hunfold]; exact hout,
    by rw [houtlen, List.length_replicate, hlen], ?_⟩
  intro p hp rp hmem hkey
  have hcount :
      List.countP (fun rp => decide (rp.id
        = some (Except.ok ((c + p) % U64MOD)))) rps = 1 := by
    have c1 : List.countP (fun rp => decide (rp.id
        = some (Except.ok ((c + p) % U64MOD)))) rps
        = List.countP (fun o : Option RawValue => decide (o = some (Except.ok ((c + p) % U64MOD))))
          (rps.map (fun rp => rp.id)) := by
      rw [List.countP_map]
      rfl
    have c2 : List.countP (fun o : Option RawValue => decide (o
        = some (Except.ok ((c + p) % U64MOD)))) (rps.map (fun rp => rp.id))
        = List.countP (fun o : Option RawValue => decide (o = some (Except.ok ((c + p) % U64MOD))))
          ((allocIds c batch.length).map (fun v => some (Except.ok v))) :=
      hperm.countP_eq _
    have c3 : List.countP (fun o : Option RawValue => decide (o
        = some (Except.ok ((c + p) % U64MOD))))
        ((allocIds c batch.length).map (fun v => some (Except.ok v)))
        = List.countP (fun v => decide (v = (c + p) % U64MOD))
          (allocIds c batch.length) := by
      rw [List.countP_map]
      apply List.countP_congr
      intro v _
      simp only [Function.comp]
      rw [decide_eq_true_iff, decide_eq_true_iff]
      constructor
      · intro h
        exact some_ok_injective h
      · intro h
        rw [h]
    have c4 : List.countP (fun v => decide (v = (c + p) % U64MOD))
        (allocIds c batch.length) = 1 := by
      rw [show List.countP (fun v => decide (v = (c + p) % U64MOD))
          (allocIds c batch.length)
          = List.count ((c + p) % U64MOD) (allocIds c batch.length) from ?_]
      · exact List.count_eq_one_of_mem hnodup (mem_allocIds.mpr ⟨p, hp, rfl⟩)
      · rw [List.count_eq_countP]
        apply List.countP_congr
        intro x _
        rw [beq_iff_eq, decide_eq_true_iff]
    rw [c1, c2, c3, c4]
  have hfil : rps.filter (fun rp => decide (rp.id
      = some (Except.ok ((c + p) % U64MOD)))) = [rp] := by
    have hlen1 : (rps.filter (fun rp => decide (rp.id
        = some (Except.ok ((c + p) % U64MOD))))).length = 1 := by
      rw [← List.countP_eq_length_filter]
      exact hcount
    obtain ⟨a, ha⟩ := List.length_eq_one.mp hlen1
    have hrpmem : rp ∈ rps.filter (fun rp => decide (rp.id
        = some (Except.ok ((c + p) % U64MOD)))) := by
      rw [List.mem_filter]
      exact ⟨hmem, by rw [decide_eq_true_iff]; exact hkey⟩
    rw [ha] at hrpmem
    rw [List.mem_singleton] at hrpmem
    rw [ha, hrpmem]
  have hv := hval p
  rw [hset, hitsAt_allocMap_eq R hc hn hp rps, hfil] at hv
  exact hv

theorem batch_request_correlates_by_position_witness :
    ∃ out, (batch_request Nat 5 [("a", none), ("b", none), ("c", none)]
        (Except.ok ⟨Except.ok [⟨some (Except.ok 7), 70⟩, ⟨some (Except.ok 5), 50⟩,
          ⟨some (Except.ok 6), 60⟩], Except.error "e"⟩)).1 = Except.ok out ∧
      out.length = 3 ∧
      ∀ p, p < 3 →
        ∀ rp ∈ [(⟨some (Except.ok 7), 70⟩ : JsonRpcResponse Nat),
          ⟨some (Except.ok 5), 50⟩, ⟨some (Except.ok 6), 60⟩],
          rp.id = some (Except.ok ((5 + p) % U64MOD)) →
          out[p]? = some rp.result :=
  batch_request_correlates_by_position Nat 5 [("a", none), ("b", none), ("c", none)]
    _ [⟨some (Except.ok 7), 70⟩, ⟨some (Except.ok 5), 50⟩, ⟨some (Except.ok 6), 60⟩]
    (by decide) (by decide) rfl (by decide)

/-- C10: a batch response in which several envelopes carry the same parsed id,
bound in the id-to-position map, raises no error: the write loop lets each
later envelope overwrite the shared position, so the position ends up holding
the result of the last such envelope in array order. -/
theorem batch_request_duplicate_id_last_wins (R : Type) [Inhabited R] (c : Nat)
    (batch : List (String × Option String)) (bbody : BatchBody R)
    (rps : List (JsonRpcResponse R))
    (hc : c < U64MOD) (hn : batch.length ≤ U64MOD)
    (hbody : bbody.asResponses = Except.ok rps)
    (hgood : ∀ rp ∈ rps, ∃ v, rp.id = some (Except.ok v) ∧
      v ∈ allocIds c batch.length)
    (hdup : ¬ (rps.map (fun rp => rp.id)).Nodup) :
    ∃ out, (batch_request R c batch (Except.ok bbody)).1 = Except.ok out ∧
      ∀ p, p < batch.length → ∀ rp',
        (rps.filter (fun rp => decide (rp.id
          = some (Except.ok ((c + p) % U64MOD))))).getLast? = some rp' →
        out[p]? = some rp'.result := by
  have hunfold := batch_request_ok_unfold R c batch bbody rps hbody
  have hlen := batchLoop_ordered_length batch hc
  have hset := batchLoop_set batch 0 hc
  have hgoodfill : ∀ rp ∈ rps, ∃ v p', rp.id = some (Except.ok v) ∧
      mapGet (batchLoop c 0 batch).request_set v = some p' ∧
      p' < (List.replicate (batchLoop c 0 batch).ordered_requests.length
        (default : R)).length := by
    intro rp hmem
    obtain ⟨v, hid, hv⟩ := hgood rp hmem
    obtain ⟨i, hi, hvi⟩ := mem_allocIds.mp hv
    refine ⟨v, i, hid, ?_, ?_⟩
    · rw [hset, hvi]
      rw [mapGet_allocMap_eq batch.length 0 hc hn hi, Nat.zero_add]
    · rw [List.length_replicate, hlen]
      exact hi
  obtain ⟨out, hout, houtlen, hval⟩ :=
    fillLoop_spec R (batchLoop c 0 batch).request_set rps
      (List.replicate (batchLoop c 0 batch).ordered_requests.length (default : R))
      hgoodfill
  refine ⟨out, by rw [hunfold]; exact hout, ?_⟩
  intro p hp rp' hlast
  have hv := hval p
  rw [hset, hitsAt_allocMap_eq R hc hn hp rps, hlast] at hv
  exact hv

theorem batch_request_duplicate_id_last_wins_witness :
    ∃ out, (batch_request Nat 0 [("a", none), ("b", none)]
        (Except.ok ⟨Except.ok [⟨some (Except.ok 0), 10⟩, ⟨some (Except.ok 0), 20⟩],
          Except.error "e"⟩)).1 = Except.ok out ∧
      ∀ p, p < 2 → ∀ rp',
        ([(⟨some (Except.ok 0), 10⟩ : JsonRpcResponse Nat),
          ⟨some (Except.ok 0), 20⟩].filter (fun rp => decide (rp.id
          = some (Except.ok ((0 + p) % U64MOD))))).getLast? = some rp' →
        out[p]? = some rp'.result := by
  apply batch_request_duplicate_id_last_wins Nat 0 [("a", none), ("b", none)]
      _ [⟨some (Except.ok 0), 10⟩, ⟨some (Except.ok 0), 20⟩]
      (by decide) (by decide) rfl
  · intro rp h
    rcases List.mem_cons.mp h with h1 | h1
    · subst h1
      exact ⟨0, rfl, by decide⟩
    · rw [List.mem_singleton] at h1
      subst h1
      exact ⟨0, rfl, by decide⟩
  · decide

end Jsonrpsee
